/-
Verification of the omni-visual caching and image-fetch pipeline.

Shallow embedding of:
  * src/omni_visual/cache.py          (ImageCache)
  * src/omni_visual/agent.py          (cache-aware wrappers)
  * src/omni_visual/tools/vision.py   (retry logic, street-view
    normalisation, relative direction, panoramic fan-out)

Modelling conventions:
  * Python wall-clock times (time.time()) are modelled as integers `now`,
    passed explicitly to each operation.
  * A Python dict with string keys is an insertion-ordered association
    list with unique keys (`Dict`); `d[k] = v` replaces in place when the
    key exists, else appends, exactly like CPython dicts.
  * The cache key is md5(f"{lat:.6f}:{lng:.6f}:{sorted(params.items())}").
    The md5 digest is a deterministic function of the formatted string, so
    a key is determined by (lat rounded to 6 decimals, lng rounded to 6
    decimals, params sorted by name); we model the key as that triple
    (`CacheKey`).  No claim under verification depends on md5 collisions.
  * Python `float` coordinates and angles are modelled as rationals.
  * A raised exception that escapes an operation is modelled as `none` /
    an explicit error value; the Python object's state at the raise point
    is the `none` case's state.
-/
import Mathlib

namespace OmniVisual

/-- The fragment of Python values the cached payloads need. -/
inductive PyVal where
  | bool (b : Bool)
  | int (n : Int)
  | str (s : String)
  deriving DecidableEq, Repr

/-- Python truthiness on the `PyVal` fragment. -/
def PyVal.truthy : PyVal → Bool
  | .bool b => b
  | .int n => n != 0
  | .str s => s != ""

/-- A Python dict with string keys: insertion-ordered association list. -/
def Dict := List (String × PyVal)
  deriving DecidableEq, Repr

/-- Python `d.get(k)` / `d[k]` lookup. -/
def Dict.lookup : Dict → String → Option PyVal
  | [], _ => none
  | (k', v) :: rest, k => if k' = k then some v else Dict.lookup rest k

/-- Python `d[k] = v`: replace in place when `k` is present, else append
(CPython dicts keep the original position on overwrite). -/
def Dict.setItem : Dict → String → PyVal → Dict
  | [], k, v => [(k, v)]
  | (k', v') :: rest, k, v =>
      if k' = k then (k, v) :: rest else (k', v') :: Dict.setItem rest k v

/-- Python truthiness of a dict: nonempty. -/
def Dict.truthy (d : Dict) : Bool := d ≠ ([] : Dict)

/-- `result.get("success")` is truthy (absent key counts as falsy, like
Python's `None`). -/
def Dict.successTruthy (d : Dict) : Bool :=
  match d.lookup "success" with
  | some v => v.truthy
  | none => false

/-- Round a rational to the nearest integer, ties to even (the rounding
used by Python's `round` and by `"%.6f"` formatting). -/
def roundHalfEven (q : ℚ) : ℤ :=
  let f : ℤ := ⌊q⌋
  let r : ℚ := q - f
  if r < 1/2 then f
  else if 1/2 < r then f + 1
  else if f % 2 = 0 then f else f + 1

/-- Sort named parameters by name: Python's `sorted(params.items())`
(parameter names are distinct, so comparing names suffices). -/
def sortParams (params : List (String × PyVal)) : List (String × PyVal) :=
  params.insertionSort (fun a b => a.1 ≤ b.1)

/-- `ImageCache._make_key`: the data determining
`md5(f"\x7blat:.6f\x7d:\x7blng:.6f\x7d:\x7bsorted(params.items())\x7d")` —
coordinates rounded to 6 decimal places (held in millionths) and the
parameters sorted by name. -/
structure CacheKey where
  lat6 : ℤ
  lng6 : ℤ
  params : List (String × PyVal)
  deriving DecidableEq, Repr

def make_key (lat lng : ℚ) (params : List (String × PyVal)) : CacheKey :=
  ⟨roundHalfEven (lat * 1000000), roundHalfEven (lng * 1000000),
    sortParams params⟩

/-- `ImageCache`: `_cache` is the insertion-ordered dict mapping key to
(timestamp, value); `_ttl` in seconds; `_max_size` a nonnegative entry
bound; hit and miss counters; `_name`. The stored value type is a
parameter (`Any` in the source). -/
structure ImageCache (α : Type) where
  cache : List (CacheKey × ℤ × α)
  ttl : ℤ
  maxSize : ℕ
  hits : ℕ
  misses : ℕ
  name : String
  deriving DecidableEq, Repr

namespace ImageCache

/-- `ImageCache(ttl_seconds, max_size)`. -/
def init (α : Type) (ttlSeconds : ℤ) (maxSize : ℕ) : ImageCache α :=
  ⟨[], ttlSeconds, maxSize, 0, 0, "unnamed"⟩

/-- `key in self._cache` / `self._cache[key]`. -/
def findEntry {α : Type} : List (CacheKey × ℤ × α) → CacheKey → Option (ℤ × α)
  | [], _ => none
  | (k', tv) :: rest, k => if k' = k then some tv else findEntry rest k

/-- `del self._cache[key]` (keys are unique; removes the first match). -/
def eraseKey {α : Type} : List (CacheKey × ℤ × α) → CacheKey → List (CacheKey × ℤ × α)
  | [], _ => []
  | (k', tv) :: rest, k =>
      if k' = k then rest else (k', tv) :: eraseKey rest k

/-- `self._cache[key] = (ts, v)`: replace in place or append. -/
def setEntry {α : Type} : List (CacheKey × ℤ × α) → CacheKey → ℤ × α → List (CacheKey × ℤ × α)
  | [], k, tv => [(k, tv)]
  | (k', tv') :: rest, k, tv =>
      if k' = k then (k, tv) :: rest else (k', tv') :: setEntry rest k tv

/-- `min(self._cache, key=lambda k: self._cache[k][0])`: the key of the
first entry (in insertion order) with the smallest timestamp; `none` on an
empty dict (Python raises ValueError there). -/
def oldestEntry {α : Type} : List (CacheKey × ℤ × α) → Option (CacheKey × ℤ)
  | [] => none
  | (k, ts, _) :: rest =>
      match oldestEntry rest with
      | none => some (k, ts)
      | some (k', ts') => if ts ≤ ts' then some (k, ts) else some (k', ts')

/-- `ImageCache.get`: returns the hit value (or `none`) and the
post-state. -/
def get {α : Type} (c : ImageCache α) (now : ℤ) (lat lng : ℚ)
    (params : List (String × PyVal)) : Option α × ImageCache α :=
  let key := make_key lat lng params
  match findEntry c.cache key with
  | some (timestamp, value) =>
      if now - timestamp < c.ttl then
        (some value, { c with hits := c.hits + 1 })
      else
        (none, { c with cache := eraseKey c.cache key, misses := c.misses + 1 })
  | none => (none, { c with misses := c.misses + 1 })

/-- The `if len(self._cache) >= self._max_size:` eviction block of
`ImageCache.set`: the store after it runs, or `none` for the uncaught
ValueError `min` raises on an empty dict (only reachable with
`max_size = 0`). -/
def evictIfFull {α : Type} (c : ImageCache α) :
    Option (List (CacheKey × ℤ × α)) :=
  if c.maxSize ≤ c.cache.length then
    match oldestEntry c.cache with
    | none => none
    | some (oldestKey, _) => some (eraseKey c.cache oldestKey)
  else
    some c.cache

/-- `ImageCache.set`: evicts the oldest entry first when at capacity,
then inserts with the current timestamp; `none` propagates the eviction
block's exception (the cache is unchanged there). -/
def set {α : Type} (c : ImageCache α) (now : ℤ) (lat lng : ℚ) (value : α)
    (params : List (String × PyVal)) : Option (ImageCache α) :=
  match evictIfFull c with
  | none => none
  | some l =>
      some { c with cache := setEntry l (make_key lat lng params) (now, value) }

/-- `ImageCache.invalidate`: returns whether the entry existed, and the
post-state. -/
def invalidate {α : Type} (c : ImageCache α) (lat lng : ℚ)
    (params : List (String × PyVal)) : Bool × ImageCache α :=
  let key := make_key lat lng params
  match findEntry c.cache key with
  | some _ => (true, { c with cache := eraseKey c.cache key })
  | none => (false, c)

/-- `ImageCache.clear`. -/
def clear {α : Type} (c : ImageCache α) : ImageCache α :=
  { c with cache := [], hits := 0, misses := 0 }

/-- The dict returned by `ImageCache.stats`. -/
structure Stats where
  name : String
  hits : ℕ
  misses : ℕ
  hitRate : ℚ
  size : ℕ
  maxSize : ℕ
  ttlSeconds : ℤ
  deriving DecidableEq, Repr

/-- `round(x, 3)`: to the nearest thousandth, ties to even. -/
def roundTo3 (q : ℚ) : ℚ := (roundHalfEven (q * 1000) : ℚ) / 1000

/-- `ImageCache.stats`. -/
def stats {α : Type} (c : ImageCache α) : Stats :=
  let total := c.hits + c.misses
  { name := c.name
    hits := c.hits
    misses := c.misses
    hitRate := if 0 < total then roundTo3 ((c.hits : ℚ) / (total : ℚ)) else 0
    size := c.cache.length
    maxSize := c.maxSize
    ttlSeconds := c.ttl }

end ImageCache

/-- One client-visible cache operation (the arguments Python callers pass,
with the wall-clock reading the operation would observe). -/
inductive CacheOp (α : Type) where
  | get (now : ℤ) (lat lng : ℚ) (params : List (String × PyVal))
  | set (now : ℤ) (lat lng : ℚ) (value : α) (params : List (String × PyVal))
  | invalidate (lat lng : ℚ) (params : List (String × PyVal))
  | clear
  deriving Repr

namespace ImageCache

/-- State transition of one operation (a `set` that raises leaves the
state unchanged: the exception fires before any mutation). -/
def applyOp {α : Type} (c : ImageCache α) : CacheOp α → ImageCache α
  | .get now lat lng params => (c.get now lat lng params).2
  | .set now lat lng v params =>
      match c.set now lat lng v params with
      | some c' => c'
      | none => c
  | .invalidate lat lng params => (c.invalidate lat lng params).2
  | .clear => c.clear

/-- Run a sequence of operations. -/
def run {α : Type} (c : ImageCache α) : List (CacheOp α) → ImageCache α
  | [] => c
  | op :: ops => run (applyOp c op) ops

/-- Replace the stored value at `key`, keeping its timestamp: the effect
on the cache of mutating, in place, a dict obtained from `get` (the cache
entry holds a reference to the same object). -/
def mutateValue {α : Type} (l : List (CacheKey × ℤ × α)) (k : CacheKey)
    (v : α) : List (CacheKey × ℤ × α) :=
  l.map (fun e => if e.1 = k then (e.1, e.2.1, v) else e)

end ImageCache

/-!  Cache-aware wrappers (`agent.py`).  The network call is abstracted:
`fetchResult` is the dict the underlying vision tool would return for
these arguments.  The wrappers return the dict given to the caller, the
post-state of the cache, and whether a fetch was performed; `none` models
an uncaught exception from `ImageCache.set`. -/

/-- The keyword arguments `cached_get_overhead_view` passes to the cache. -/
def overheadParams (zoom : ℤ) (mapType : String) : List (String × PyVal) :=
  [("zoom", .int zoom), ("map_type", .str mapType)]

/-- The keyword arguments `cached_get_street_view` passes to the cache. -/
def streetParams (heading pitch fov : ℤ) : List (String × PyVal) :=
  [("heading", .int heading), ("pitch", .int pitch), ("fov", .int fov)]

/-- Shared body of the two wrappers: check the cache (`if cached:` tests
Python truthiness, so a stored falsy dict falls through to the fetch);
on a truthy hit, `cached["from_cache"] = True` mutates the stored dict in
place and the same object is returned; on fall-through, fetch, and cache
the result only when `result.get("success")` is truthy. -/
def cachedFetch (c : ImageCache Dict) (now : ℤ) (lat lng : ℚ)
    (params : List (String × PyVal)) (fetchResult : Dict) :
    Option (Dict × ImageCache Dict × Bool) :=
  let (cached?, c1) := c.get now lat lng params
  let fetchBranch : ImageCache Dict → Option (Dict × ImageCache Dict × Bool) :=
    fun c1 =>
      if fetchResult.successTruthy then
        match c1.set now lat lng fetchResult params with
        | none => none
        | some c2 => some (fetchResult, c2, true)
      else
        some (fetchResult, c1, true)
  match cached? with
  | some cached =>
      if cached.truthy then
        let marked := cached.setItem "from_cache" (.bool true)
        some (marked,
          { c1 with cache :=
              ImageCache.mutateValue c1.cache (make_key lat lng params) marked },
          false)
      else
        fetchBranch c1
  | none => fetchBranch c1

/-- `cached_get_overhead_view` over the overhead cache. -/
def cached_get_overhead_view (c : ImageCache Dict) (now : ℤ) (lat lng : ℚ)
    (zoom : ℤ) (mapType : String) (fetchResult : Dict) :
    Option (Dict × ImageCache Dict × Bool) :=
  cachedFetch c now lat lng (overheadParams zoom mapType) fetchResult

/-- `cached_get_street_view` over the street-view cache. -/
def cached_get_street_view (c : ImageCache Dict) (now : ℤ) (lat lng : ℚ)
    (heading pitch fov : ℤ) (fetchResult : Dict) :
    Option (Dict × ImageCache Dict × Bool) :=
  cachedFetch c now lat lng (streetParams heading pitch fov) fetchResult

/-!  Retry logic (`vision.py`, `_fetch_with_retry`): the `tenacity`
decorator `retry(stop=stop_after_attempt(3),
wait=wait_exponential(multiplier=1, min=1, max=10),
retry=retry_if_exception_type((httpx.TimeoutException, httpx.NetworkError)),
reraise=True)` around `client.get` + `raise_for_status`.  Each attempt's
outside-world outcome is supplied as `outcomes n` (1-indexed). -/

/-- What the network does on one attempt. -/
inductive AttemptOutcome where
  | timeout
  | networkError
  | response (status : ℕ) (body : String)
  deriving DecidableEq, Repr

/-- The exception an attempt raises, if any. -/
inductive FetchFailure where
  | timeout
  | networkError
  | httpStatus (status : ℕ) (body : String)
  deriving DecidableEq, Repr

/-- `retry_if_exception_type((httpx.TimeoutException, httpx.NetworkError))`:
an `httpx.HTTPStatusError` from `raise_for_status` is not retried. -/
def isRetryable : FetchFailure → Bool
  | .timeout => true
  | .networkError => true
  | .httpStatus _ _ => false

/-- One attempt: `response.raise_for_status()` raises on any non-2xx
status. -/
def attemptResult : AttemptOutcome → Except FetchFailure (ℕ × String)
  | .timeout => .error .timeout
  | .networkError => .error .networkError
  | .response s b =>
      if 200 ≤ s ∧ s < 300 then .ok (s, b) else .error (.httpStatus s b)

/-- `wait_exponential(multiplier=1, min=1, max=10)` after a failed attempt
number `n` (1-indexed): `max(min, min(multiplier * 2^(n-1), max))`,
in whole seconds. -/
def wait_exponential (attemptNumber : ℕ) : ℕ :=
  max 1 (min (2 ^ (attemptNumber - 1)) 10)

/-- The observable outcome of the retried call: final result, number of
attempts actually made, and the sequence of backoff sleeps. -/
structure RetryRun where
  result : Except FetchFailure (ℕ × String)
  attemptsMade : ℕ
  waits : List ℕ
  deriving Repr

/-- Attempt loop: `attempt` is the current 1-indexed attempt number,
`rem` how many further attempts `stop_after_attempt` still allows. -/
def retryGo (outcomes : ℕ → AttemptOutcome) : ℕ → ℕ → RetryRun
  | attempt, 0 =>
      match attemptResult (outcomes attempt) with
      | .ok r => ⟨.ok r, attempt, []⟩
      | .error e => ⟨.error e, attempt, []⟩
  | attempt, rem + 1 =>
      match attemptResult (outcomes attempt) with
      | .ok r => ⟨.ok r, attempt, []⟩
      | .error e =>
          if isRetryable e then
            let rest := retryGo outcomes (attempt + 1) rem
            ⟨rest.result, rest.attemptsMade, wait_exponential attempt :: rest.waits⟩
          else ⟨.error e, attempt, []⟩

/-- `_fetch_with_retry`: first attempt plus at most 2 retries
(`stop_after_attempt(3)`); `reraise=True` surfaces the last failure. -/
def fetch_with_retry (outcomes : ℕ → AttemptOutcome) : RetryRun :=
  retryGo outcomes 1 2

/-!  Street-view parameter handling (`vision.py`, `get_street_view`): the
pure normalisation and annotation performed before the network call. -/

/-- The `direction_names` dict literal, in its iteration order. -/
def direction_names : List ((ℤ × ℤ) × String) :=
  [((0, 45), "North"), ((45, 90), "Northeast"), ((90, 135), "East"),
   ((135, 180), "Southeast"), ((180, 225), "South"),
   ((225, 270), "Southwest"), ((270, 315), "West"),
   ((315, 360), "Northwest")]

/-- The `for (low, high), name in direction_names.items()` loop with its
`facing = "North"` default. -/
def facingOf (heading : ℤ) : String :=
  match direction_names.find?
      (fun e => decide (e.1.1 ≤ heading) && decide (heading < e.1.2)) with
  | some e => e.2
  | none => "North"

/-- `pitch_desc`. -/
def pitchDescOf (pitch : ℤ) : String :=
  if -15 ≤ pitch ∧ pitch ≤ 15 then "eye level"
  else if 15 < pitch then "looking up"
  else "looking down"

/-- The normalised parameters and annotations `get_street_view` computes
(and echoes in the success payload's `parameters` field). -/
structure StreetViewParams where
  heading : ℤ
  pitch : ℤ
  fov : ℤ
  facing : String
  pitchDescription : String
  deriving DecidableEq, Repr

/-- `get_street_view`'s normalisation: `heading % 360` (Python modulo),
`max(-90, min(90, pitch))`, `max(20, min(120, fov))`, then the compass
and pitch annotations. -/
def get_street_view_params (heading pitch fov : ℤ) : StreetViewParams :=
  let h := heading % 360
  let p := max (-90) (min 90 pitch)
  let f := max 20 (min 120 fov)
  ⟨h, p, f, facingOf h, pitchDescOf p⟩

/-!  Relative direction (`vision.py`, `get_relative_direction`). -/

/-- Python's `%` on reals with a positive modulus (floor-based). -/
def pymod (x m : ℚ) : ℚ := x - m * ⌊x / m⌋

/-- `(bearing_to_dest - user_heading + 360) % 360`. -/
def relativeAngle (user_heading bearing_to_dest : ℚ) : ℚ :=
  pymod (bearing_to_dest - user_heading + 360) 360

/-- `get_relative_direction`: the if/elif chain over the relative
angle. -/
def get_relative_direction (user_heading bearing_to_dest : ℚ) : String :=
  let relative := relativeAngle user_heading bearing_to_dest
  if relative ≤ 22.5 ∨ relative > 337.5 then "directly AHEAD"
  else if 22.5 < relative ∧ relative ≤ 67.5 then
    "AHEAD and to your RIGHT (2 o\x27clock)"
  else if 67.5 < relative ∧ relative ≤ 112.5 then
    "to your RIGHT (3 o\x27clock)"
  else if 112.5 < relative ∧ relative ≤ 157.5 then
    "BEHIND and to your RIGHT (4 o\x27clock)"
  else if 157.5 < relative ∧ relative ≤ 202.5 then
    "directly BEHIND you"
  else if 202.5 < relative ∧ relative ≤ 247.5 then
    "BEHIND and to your LEFT (8 o\x27clock)"
  else if 247.5 < relative ∧ relative ≤ 292.5 then
    "to your LEFT (9 o\x27clock)"
  else
    "AHEAD and to your LEFT (10 o\x27clock)"

/-!  Panoramic fan-out (`vision.py`, `explore_panoramic`).  Each leg is a
`get_street_view` call; `asyncio.gather(..., return_exceptions=True)`
yields, per leg, either a captured exception or the returned dict. -/

/-- Outcome of one leg as seen after `gather`. -/
inductive LegOutcome where
  | exception (msg : String)
  | result (d : Dict)
  deriving DecidableEq, Repr

/-- The entry appended to `views` for one leg. -/
def legView (direction : String) : LegOutcome → Dict
  | .exception msg =>
      [("success", .bool false), ("error", .str msg),
       ("direction", .str direction)]
  | .result d => d.setItem "direction" (.str direction)

/-- Whether a leg counts as successful for `all_success`
(`result.get("success", False)` truthy; an exception never does). -/
def legSucceeded : LegOutcome → Bool
  | .exception _ => false
  | .result d =>
      match d.lookup "success" with
      | some v => v.truthy
      | none => false

/-- The `headings` list literal. -/
def panoramicHeadings : List (ℤ × String) :=
  [(0, "North"), (90, "East"), (180, "South"), (270, "West")]

/-- The aggregate `explore_panoramic` returns (success flag and views;
the description and latency fields carry no verified content). -/
structure PanoramicResult where
  success : Bool
  views : List Dict
  deriving DecidableEq, Repr

/-- `explore_panoramic`, with the four leg fetches abstracted as
`fetch heading`. -/
def explore_panoramic (fetch : ℤ → LegOutcome) : PanoramicResult :=
  { success := panoramicHeadings.all (fun hd => legSucceeded (fetch hd.1))
    views := panoramicHeadings.map (fun hd => legView hd.2 (fetch hd.1)) }

/-!  Statement-level vocabulary for the partition claims. -/

/-- The eight compass labels of `direction_names`, in band order
(band `i` is [45 i, 45 (i+1))). -/
def compassLabels (i : Fin 8) : String :=
  match (i : ℕ) with
  | 0 => "North"
  | 1 => "Northeast"
  | 2 => "East"
  | 3 => "Southeast"
  | 4 => "South"
  | 5 => "Southwest"
  | 6 => "West"
  | _ => "Northwest"

/-- The eight relative-direction labels of `get_relative_direction`, in
sector order (sector 0 centred on straight ahead). -/
def sectorLabels (i : Fin 8) : String :=
  match (i : ℕ) with
  | 0 => "directly AHEAD"
  | 1 => "AHEAD and to your RIGHT (2 o\x27clock)"
  | 2 => "to your RIGHT (3 o\x27clock)"
  | 3 => "BEHIND and to your RIGHT (4 o\x27clock)"
  | 4 => "directly BEHIND you"
  | 5 => "BEHIND and to your LEFT (8 o\x27clock)"
  | 6 => "to your LEFT (9 o\x27clock)"
  | _ => "AHEAD and to your LEFT (10 o\x27clock)"

/-- Sector `i` of the relative-direction partition of [0,360): sector 0
is [0, 22.5] ∪ (337.5, 360) (the wrapped "ahead" sector), sector `n+1`
is (22.5 + 45 n, 22.5 + 45 (n+1)]. -/
def inSector (i : Fin 8) (rel : ℚ) : Prop :=
  match (i : ℕ) with
  | 0 => rel ≤ 22.5 ∨ 337.5 < rel
  | n + 1 => 22.5 + 45 * (n : ℚ) < rel ∧ rel ≤ 22.5 + 45 * ((n : ℚ) + 1)

/-- The sector a relative angle in [0,360) falls in. -/
def sectorIndex (rel : ℚ) : Fin 8 :=
  if rel ≤ 22.5 then 0
  else if rel ≤ 67.5 then 1
  else if rel ≤ 112.5 then 2
  else if rel ≤ 157.5 then 3
  else if rel ≤ 202.5 then 4
  else if rel ≤ 247.5 then 5
  else if rel ≤ 292.5 then 6
  else if rel ≤ 337.5 then 7
  else 0

/-- Shape of a panoramic leg outcome as `get_street_view` guarantees it:
a returned dict carries an "error" entry exactly when it is a failure
payload. -/
def legWellFormed : LegOutcome → Prop
  | .exception _ => True
  | .result d =>
      (legSucceeded (.result d) = false → d.lookup "error" ≠ none) ∧
      (legSucceeded (.result d) = true → d.lookup "error" = none)

/-!  Lemmas about the retry loop. -/

theorem retryGo_attempts_le (outcomes : ℕ → AttemptOutcome) :
    ∀ (rem attempt : ℕ),
      (retryGo outcomes attempt rem).attemptsMade ≤ attempt + rem := by
  intro rem
  induction rem with
  | zero =>
      intro attempt
      cases h : attemptResult (outcomes attempt) <;> simp [retryGo, h]
  | succ rem ih =>
      intro attempt
      cases h : attemptResult (outcomes attempt) with
      | ok r => simp [retryGo, h]
      | error e =>
          by_cases hr : isRetryable e
          · simp only [retryGo, h, if_pos hr]
            have := ih (attempt + 1)
            omega
          · simp [retryGo, h, hr]

theorem retryGo_attempts_ge (outcomes : ℕ → AttemptOutcome) :
    ∀ (rem attempt : ℕ),
      attempt ≤ (retryGo outcomes attempt rem).attemptsMade := by
  intro rem
  induction rem with
  | zero =>
      intro attempt
      cases h : attemptResult (outcomes attempt) <;> simp [retryGo, h]
  | succ rem ih =>
      intro attempt
      cases h : attemptResult (outcomes attempt) with
      | ok r => simp [retryGo, h]
      | error e =>
          by_cases hr : isRetryable e
          · simp only [retryGo, h, if_pos hr]
            have := ih (attempt + 1)
            omega
          · simp [retryGo, h, hr]

theorem retryGo_intermediate (outcomes : ℕ → AttemptOutcome) :
    ∀ (rem attempt k : ℕ), attempt ≤ k →
      k < (retryGo outcomes attempt rem).attemptsMade →
      ∃ e, attemptResult (outcomes k) = .error e ∧ isRetryable e = true := by
  intro rem
  induction rem with
  | zero =>
      intro attempt k hk hlt
      cases h : attemptResult (outcomes attempt) <;>
        · simp [retryGo, h] at hlt
          omega
  | succ rem ih =>
      intro attempt k hk hlt
      cases h : attemptResult (outcomes attempt) with
      | ok r =>
          simp [retryGo, h] at hlt
          omega
      | error e =>
          by_cases hr : isRetryable e
          · simp only [retryGo, h, if_pos hr] at hlt
            rcases eq_or_lt_of_le hk with heq | hgt
            · exact ⟨e, heq ▸ h, hr⟩
            · exact ih (attempt + 1) k hgt hlt
          · simp [retryGo, h, hr] at hlt
            omega

theorem retryGo_waits (outcomes : ℕ → AttemptOutcome) :
    ∀ (rem attempt : ℕ),
      (retryGo outcomes attempt rem).waits =
        (List.range ((retryGo outcomes attempt rem).attemptsMade - attempt)).map
          (fun i => wait_exponential (attempt + i)) := by
  intro rem
  induction rem with
  | zero =>
      intro attempt
      cases h : attemptResult (outcomes attempt) <;> simp [retryGo, h]
  | succ rem ih =>
      intro attempt
      cases h : attemptResult (outcomes attempt) with
      | ok r => simp [retryGo, h]
      | error e =>
          by_cases hr : isRetryable e
          · simp only [retryGo, h, if_pos hr]
            have hge := retryGo_attempts_ge outcomes rem (attempt + 1)
            have hsub : (retryGo outcomes (attempt + 1) rem).attemptsMade - attempt =
                ((retryGo outcomes (attempt + 1) rem).attemptsMade - (attempt + 1)) + 1 := by
              omega
            rw [ih (attempt + 1), hsub, List.range_succ_eq_map]
            simp only [List.map_cons, List.map_map]
            congr 1
            apply List.map_congr_left
            intro i _
            simp only [Function.comp_apply]
            congr 1
            omega
          · simp [retryGo, h, hr]

/-!  Lemmas about the association-list store. -/

namespace ImageCache

theorem findEntry_setEntry_self {α : Type} (l : List (CacheKey × ℤ × α))
    (k : CacheKey) (tv : ℤ × α) :
    findEntry (setEntry l k tv) k = some tv := by
  induction l with
  | nil => simp [setEntry, findEntry]
  | cons e rest ih =>
      obtain ⟨k', tv'⟩ := e
      by_cases h : k' = k
      · simp [setEntry, findEntry, h]
      · simp [setEntry, findEntry, h, ih]

theorem setEntry_length_le {α : Type} (l : List (CacheKey × ℤ × α))
    (k : CacheKey) (tv : ℤ × α) :
    (setEntry l k tv).length ≤ l.length + 1 := by
  induction l with
  | nil => simp [setEntry]
  | cons e rest ih =>
      obtain ⟨k', tv'⟩ := e
      by_cases h : k' = k
      · simp [setEntry, h]
      · simp only [setEntry, if_neg h, List.length_cons]
        omega

theorem eraseKey_length_le {α : Type} (l : List (CacheKey × ℤ × α))
    (k : CacheKey) : (eraseKey l k).length ≤ l.length := by
  induction l with
  | nil => simp [eraseKey]
  | cons e rest ih =>
      obtain ⟨k', tv'⟩ := e
      by_cases h : k' = k
      · simp only [eraseKey, if_pos h, List.length_cons]
        omega
      · simp only [eraseKey, if_neg h, List.length_cons]
        omega

theorem eraseKey_length_of_find {α : Type} (k : CacheKey) (tv : ℤ × α) :
    ∀ l : List (CacheKey × ℤ × α), findEntry l k = some tv →
      (eraseKey l k).length + 1 = l.length := by
  intro l
  induction l with
  | nil => intro h; simp [findEntry] at h
  | cons e rest ih =>
      intro hfind
      obtain ⟨k', tv'⟩ := e
      by_cases h : k' = k
      · simp [eraseKey, h]
      · simp only [findEntry, if_neg h] at hfind
        have h2 := ih hfind
        simp only [eraseKey, if_neg h, List.length_cons]
        omega

theorem oldestEntry_eq_none_iff {α : Type} (l : List (CacheKey × ℤ × α)) :
    oldestEntry l = none ↔ l = [] := by
  cases l with
  | nil => simp [oldestEntry]
  | cons e rest =>
      obtain ⟨k', ts', v'⟩ := e
      simp only [oldestEntry]
      cases hrest : oldestEntry rest with
      | none => simp
      | some kts =>
          obtain ⟨a, b⟩ := kts
          show (if ts' ≤ b then some (k', ts') else some (a, b)) = none ↔
            (k', ts', v') :: rest = []
          split_ifs <;> simp

theorem oldestEntry_spec {α : Type} :
    ∀ (l : List (CacheKey × ℤ × α)) (k : CacheKey) (ts : ℤ),
      oldestEntry l = some (k, ts) →
      (∃ v, (k, ts, v) ∈ l) ∧ ∀ e ∈ l, ts ≤ e.2.1 := by
  intro l
  induction l with
  | nil => intro k ts h; simp [oldestEntry] at h
  | cons e rest ih =>
      intro k ts hold
      obtain ⟨k', ts', v'⟩ := e
      simp only [oldestEntry] at hold
      cases hrest : oldestEntry rest with
      | none =>
          have hnil : rest = [] := (oldestEntry_eq_none_iff rest).mp hrest
          subst hnil
          simp only [hrest] at hold
          cases hold
          refine ⟨⟨v', by simp⟩, ?_⟩
          intro e he
          rcases List.mem_cons.mp he with h | h
          · subst h; simp
          · simp at h
      | some kts =>
          obtain ⟨k2, ts2⟩ := kts
          simp only [hrest] at hold
          obtain ⟨⟨v2, hmem⟩, hmin⟩ := ih k2 ts2 hrest
          by_cases hle : ts' ≤ ts2
          · rw [if_pos hle] at hold
            cases hold
            refine ⟨⟨v', by simp⟩, ?_⟩
            intro e he
            rcases List.mem_cons.mp he with h | h
            · subst h; simp
            · exact le_trans hle (hmin e h)
          · rw [if_neg hle] at hold
            cases hold
            refine ⟨⟨v2, List.mem_cons_of_mem _ hmem⟩, ?_⟩
            intro e he
            rcases List.mem_cons.mp he with h | h
            · subst h; simp; omega
            · exact hmin e h

theorem findEntry_isSome_of_mem {α : Type} (l : List (CacheKey × ℤ × α))
    (k : CacheKey) (ts : ℤ) (v : α) (hmem : (k, ts, v) ∈ l) :
    ∃ tv, findEntry l k = some tv := by
  induction l with
  | nil => simp at hmem
  | cons e rest ih =>
      obtain ⟨k', tv'⟩ := e
      by_cases h : k' = k
      · exact ⟨tv', by simp [findEntry, h]⟩
      · rcases List.mem_cons.mp hmem with heq | hmem'
        · cases heq; simp at h
        · obtain ⟨tv, htv⟩ := ih hmem'
          exact ⟨tv, by simp [findEntry, h, htv]⟩

theorem oldestEntry_isSome_of_ne_nil {α : Type}
    (l : List (CacheKey × ℤ × α)) (h : l ≠ []) :
    ∃ k ts, oldestEntry l = some (k, ts) := by
  cases hold : oldestEntry l with
  | none => exact absurd ((oldestEntry_eq_none_iff l).mp hold) h
  | some kts =>
      obtain ⟨a, b⟩ := kts
      exact ⟨a, b, rfl⟩

/-!  Characterisations of `get`, `evictIfFull` and `set`. -/

theorem get_hit {α : Type} (c : ImageCache α) (now : ℤ) (lat lng : ℚ)
    (params : List (String × PyVal)) (ts : ℤ) (v : α)
    (hfind : findEntry c.cache (make_key lat lng params) = some (ts, v))
    (hfresh : now - ts < c.ttl) :
    c.get now lat lng params = (some v, { c with hits := c.hits + 1 }) := by
  simp [get, hfind, hfresh]

theorem get_expired {α : Type} (c : ImageCache α) (now : ℤ) (lat lng : ℚ)
    (params : List (String × PyVal)) (ts : ℤ) (v : α)
    (hfind : findEntry c.cache (make_key lat lng params) = some (ts, v))
    (hstale : ¬ now - ts < c.ttl) :
    c.get now lat lng params =
      (none, { c with cache := eraseKey c.cache (make_key lat lng params),
                      misses := c.misses + 1 }) := by
  simp [get, hfind, hstale]

theorem get_absent {α : Type} (c : ImageCache α) (now : ℤ) (lat lng : ℚ)
    (params : List (String × PyVal))
    (hfind : findEntry c.cache (make_key lat lng params) = none) :
    c.get now lat lng params = (none, { c with misses := c.misses + 1 }) := by
  simp [get, hfind]

theorem evictIfFull_of_lt {α : Type} (c : ImageCache α)
    (h : c.cache.length < c.maxSize) : evictIfFull c = some c.cache := by
  simp only [evictIfFull, if_neg (not_le.mpr h)]

theorem set_of_lt {α : Type} (c : ImageCache α) (now : ℤ) (lat lng : ℚ)
    (v : α) (params : List (String × PyVal))
    (h : c.cache.length < c.maxSize) :
    c.set now lat lng v params =
      some { c with
              cache := setEntry c.cache (make_key lat lng params) (now, v) } := by
  simp only [set, evictIfFull_of_lt c h]

end ImageCache

/-!  Claims about `ImageCache.get` and `ImageCache.set`. -/

/-- C6: for every (lat, lng, params) and any cache state, a `get` with
the same parameters immediately after a successful `set` returns exactly
the payload that was set, provided the TTL has not elapsed (nothing
intervenes between the two calls). -/
theorem get_after_set {α : Type} (c c' : ImageCache α) (now now' : ℤ)
    (lat lng : ℚ) (v : α) (params : List (String × PyVal))
    (hset : c.set now lat lng v params = some c')
    (httl : now' - now < c.ttl) :
    (c'.get now' lat lng params).1 = some v := by
  simp only [ImageCache.set] at hset
  cases hev : ImageCache.evictIfFull c with
  | none => rw [hev] at hset; simp at hset
  | some l =>
      rw [hev] at hset
      cases hset
      have h := ImageCache.get_hit
        { c with cache := ImageCache.setEntry l (make_key lat lng params) (now, v) }
        now' lat lng params now v
        (ImageCache.findEntry_setEntry_self l (make_key lat lng params) (now, v))
        httl
      rw [h]

/-- C6 witness: a concrete set followed by a get one second later. -/
theorem get_after_set_witness :
    ∃ c', (ImageCache.init Dict 100 2).set 5 1 2 [("a", PyVal.int 1)] [] = some c' ∧
      (c'.get 6 1 2 []).1 = some [("a", PyVal.int 1)] := by
  have hset := ImageCache.set_of_lt (ImageCache.init Dict 100 2) 5 1 2
    [("a", PyVal.int 1)] [] (by decide)
  exact ⟨_, hset,
    get_after_set (ImageCache.init Dict 100 2) _ 5 6 1 2 [("a", PyVal.int 1)] []
      hset (by decide)⟩

/-- C2: `get` returns a hit (incrementing the hit counter, leaving the
store unchanged) exactly when an entry exists whose age is strictly less
than the TTL; an entry at least TTL old is deleted and counted as a miss;
an absent entry is counted as a miss; an expired entry is never returned
as a hit. -/
theorem get_spec {α : Type} (c : ImageCache α) (now : ℤ) (lat lng : ℚ)
    (params : List (String × PyVal)) :
    (∀ ts v, ImageCache.findEntry c.cache (make_key lat lng params) = some (ts, v) →
      now - ts < c.ttl →
      c.get now lat lng params = (some v, { c with hits := c.hits + 1 })) ∧
    (∀ ts v, ImageCache.findEntry c.cache (make_key lat lng params) = some (ts, v) →
      c.ttl ≤ now - ts →
      c.get now lat lng params =
        (none, { c with
          cache := ImageCache.eraseKey c.cache (make_key lat lng params),
          misses := c.misses + 1 })) ∧
    (ImageCache.findEntry c.cache (make_key lat lng params) = none →
      c.get now lat lng params = (none, { c with misses := c.misses + 1 })) ∧
    (∀ v, (c.get now lat lng params).1 = some v →
      ∃ ts, ImageCache.findEntry c.cache (make_key lat lng params) = some (ts, v) ∧
        now - ts < c.ttl) := by
  refine ⟨?_, ?_, ?_, ?_⟩
  · intro ts v hfind hfresh
    exact ImageCache.get_hit c now lat lng params ts v hfind hfresh
  · intro ts v hfind hstale
    exact ImageCache.get_expired c now lat lng params ts v hfind
      (not_lt.mpr hstale)
  · intro hfind
    exact ImageCache.get_absent c now lat lng params hfind
  · intro v hv
    cases hfind : ImageCache.findEntry c.cache (make_key lat lng params) with
    | none => rw [ImageCache.get_absent c now lat lng params hfind] at hv; simp at hv
    | some tsv =>
        obtain ⟨ts, v'⟩ := tsv
        by_cases hfresh : now - ts < c.ttl
        · rw [ImageCache.get_hit c now lat lng params ts v' hfind hfresh] at hv
          simp at hv
          exact ⟨ts, by rw [hv], hfresh⟩
        · rw [ImageCache.get_expired c now lat lng params ts v' hfind hfresh] at hv
          simp at hv

/-!  Rounding facts for `stats`. -/

theorem roundHalfEven_abs_le (q : ℚ) :
    |((roundHalfEven q : ℤ) : ℚ) - q| ≤ 1/2 := by
  have h0 : ((⌊q⌋ : ℤ) : ℚ) ≤ q := Int.floor_le q
  have h1 : q < ((⌊q⌋ : ℤ) : ℚ) + 1 := Int.lt_floor_add_one q
  simp only [roundHalfEven]
  split_ifs with hlt hgt heven <;>
    · rw [abs_le]
      push_cast
      constructor <;> linarith

theorem roundTo3_abs_le (x : ℚ) : |ImageCache.roundTo3 x - x| ≤ 1/2000 := by
  have h := roundHalfEven_abs_le (x * 1000)
  have h2 : ImageCache.roundTo3 x - x =
      (((roundHalfEven (x * 1000) : ℤ) : ℚ) - x * 1000) / 1000 := by
    unfold ImageCache.roundTo3
    ring
  rw [h2, abs_div, abs_of_pos (by norm_num : (0:ℚ) < 1000)]
  linarith

/-- C10 (amended): `stats` echoes the name, counters, current size,
maximum size and TTL, and reports a hit rate of 0 before any lookup and
otherwise hits/(hits+misses) rounded to 3 decimal places — hence within
1/2000 of the exact rate, but not the exact rate itself in general. -/
theorem stats_spec (α : Type) (c : ImageCache α) :
    (c.hits + c.misses = 0 → c.stats.hitRate = 0) ∧
    (0 < c.hits + c.misses →
      c.stats.hitRate =
        ImageCache.roundTo3 ((c.hits : ℚ) / ((c.hits + c.misses : ℕ) : ℚ)) ∧
      |c.stats.hitRate - (c.hits : ℚ) / ((c.hits + c.misses : ℕ) : ℚ)| ≤
        1/2000) ∧
    c.stats.name = c.name ∧ c.stats.hits = c.hits ∧
    c.stats.misses = c.misses ∧ c.stats.size = c.cache.length ∧
    c.stats.maxSize = c.maxSize ∧ c.stats.ttlSeconds = c.ttl := by
  refine ⟨?_, ?_, rfl, rfl, rfl, rfl, rfl, rfl⟩
  · intro h
    simp [ImageCache.stats, h]
  · intro h
    constructor
    · simp [ImageCache.stats, h]
    · have := roundTo3_abs_le ((c.hits : ℚ) / ((c.hits + c.misses : ℕ) : ℚ))
      simpa [ImageCache.stats, h] using this

/-- C10 witness: a cache with one hit and two misses reports the rounded
rate 0.333, and a fresh cache reports 0. -/
theorem stats_spec_witness :
    (⟨[], 100, 10, 1, 2, "overhead"⟩ : ImageCache Dict).stats.hitRate =
      ImageCache.roundTo3 ((1 : ℚ) / ((3 : ℕ) : ℚ)) ∧
    (⟨[], 100, 10, 0, 0, "overhead"⟩ : ImageCache Dict).stats.hitRate = 0 :=
  ⟨((stats_spec Dict ⟨[], 100, 10, 1, 2, "overhead"⟩).2.1 (by decide)).1,
   (stats_spec Dict ⟨[], 100, 10, 0, 0, "overhead"⟩).1 (by decide)⟩

/-- C10 counterexample: with 1 hit and 2 misses the reported hit rate is
0.333, which is not hits/(hits+misses) = 1/3 — `stats` rounds to 3
decimal places, so the rate is not exact as claimed. -/
theorem stats_hitRate_not_exact :
    (⟨[], 100, 10, 1, 2, "overhead"⟩ : ImageCache Dict).stats.hitRate =
      333/1000 ∧
    ((⟨[], 100, 10, 1, 2, "overhead"⟩ : ImageCache Dict).stats.hitRate ≠
      ((⟨[], 100, 10, 1, 2, "overhead"⟩ : ImageCache Dict).stats.hits : ℚ) /
        (((⟨[], 100, 10, 1, 2, "overhead"⟩ : ImageCache Dict).stats.hits +
          (⟨[], 100, 10, 1, 2, "overhead"⟩ : ImageCache Dict).stats.misses : ℕ) : ℚ)) := by
  have h : (⟨[], 100, 10, 1, 2, "overhead"⟩ : ImageCache Dict).stats.hitRate =
      333/1000 := by
    show (if 0 < (1 + 2 : ℕ) then
      ImageCache.roundTo3 ((1 : ℚ) / (((1 + 2 : ℕ)) : ℚ)) else 0) = 333/1000
    rw [if_pos (by norm_num)]
    unfold ImageCache.roundTo3 roundHalfEven
    norm_num
  refine ⟨h, ?_⟩
  rw [h]
  show (333/1000 : ℚ) ≠ (1 : ℚ) / ((1 + 2 : ℕ) : ℚ)
  norm_num

/-!  Preservation lemmas for the size invariant. -/

theorem set_length_le {α : Type} (c c' : ImageCache α) (now : ℤ)
    (lat lng : ℚ) (v : α) (params : List (String × PyVal))
    (hset : c.set now lat lng v params = some c')
    (hinv : c.cache.length ≤ c.maxSize) :
    c'.cache.length ≤ c.maxSize ∧ c'.maxSize = c.maxSize ∧ c'.ttl = c.ttl := by
  simp only [ImageCache.set, ImageCache.evictIfFull] at hset
  by_cases hfull : c.maxSize ≤ c.cache.length
  · rw [if_pos hfull] at hset
    cases hold : ImageCache.oldestEntry c.cache with
    | none => rw [hold] at hset; simp at hset
    | some kts =>
        obtain ⟨k, ts⟩ := kts
        rw [hold] at hset
        simp only at hset
        cases hset
        refine ⟨?_, rfl, rfl⟩
        obtain ⟨⟨w, hmem⟩, _⟩ := ImageCache.oldestEntry_spec c.cache k ts hold
        obtain ⟨tv, hfind⟩ := ImageCache.findEntry_isSome_of_mem c.cache k ts w hmem
        have hlen := ImageCache.eraseKey_length_of_find k tv c.cache hfind
        have hle := ImageCache.setEntry_length_le (ImageCache.eraseKey c.cache k)
          (make_key lat lng params) (now, v)
        simp only
        omega
  · rw [if_neg hfull] at hset
    simp only at hset
    cases hset
    refine ⟨?_, rfl, rfl⟩
    have hle := ImageCache.setEntry_length_le c.cache
      (make_key lat lng params) (now, v)
    simp only
    omega

theorem applyOp_inv {α : Type} (c : ImageCache α) (op : CacheOp α)
    (hinv : c.cache.length ≤ c.maxSize) :
    (c.applyOp op).cache.length ≤ c.maxSize ∧
      (c.applyOp op).maxSize = c.maxSize := by
  cases op with
  | get now lat lng params =>
      simp only [ImageCache.applyOp]
      cases hfind : ImageCache.findEntry c.cache (make_key lat lng params) with
      | none => rw [ImageCache.get_absent c now lat lng params hfind]; exact ⟨hinv, rfl⟩
      | some tsv =>
          obtain ⟨ts, v⟩ := tsv
          by_cases hfresh : now - ts < c.ttl
          · rw [ImageCache.get_hit c now lat lng params ts v hfind hfresh]
            exact ⟨hinv, rfl⟩
          · rw [ImageCache.get_expired c now lat lng params ts v hfind hfresh]
            refine ⟨?_, rfl⟩
            have := ImageCache.eraseKey_length_le c.cache (make_key lat lng params)
            simp only
            omega
  | set now lat lng v params =>
      simp only [ImageCache.applyOp]
      cases hset : c.set now lat lng v params with
      | none => exact ⟨hinv, rfl⟩
      | some c' =>
          obtain ⟨h1, h2, _⟩ := set_length_le c c' now lat lng v params hset hinv
          exact ⟨h1, h2⟩
  | invalidate lat lng params =>
      simp only [ImageCache.applyOp, ImageCache.invalidate]
      cases hfind : ImageCache.findEntry c.cache (make_key lat lng params) with
      | none => exact ⟨hinv, rfl⟩
      | some tv =>
          refine ⟨?_, rfl⟩
          have := ImageCache.eraseKey_length_le c.cache (make_key lat lng params)
          simp only
          omega
  | clear => exact ⟨by simp [ImageCache.applyOp, ImageCache.clear], rfl⟩

theorem run_inv {α : Type} :
    ∀ (ops : List (CacheOp α)) (c : ImageCache α),
      c.cache.length ≤ c.maxSize →
      (c.run ops).cache.length ≤ c.maxSize := by
  intro ops
  induction ops with
  | nil => intro c h; exact h
  | cons op rest ih =>
      intro c h
      obtain ⟨h1, h2⟩ := applyOp_inv c op h
      simpa only [ImageCache.run, h2] using ih (c.applyOp op) (h2 ▸ h1)

/-- C1: starting from a fresh cache, no sequence of operations ever makes
the entry count exceed the configured maximum; and a `set` on a cache at
capacity removes exactly one entry before inserting — an entry holding
the smallest insertion timestamp among the current entries. -/
theorem cache_size_invariant_and_eviction (α : Type) :
    (∀ (ttlSeconds : ℤ) (maxSize : ℕ) (ops : List (CacheOp α)),
      ((ImageCache.init α ttlSeconds maxSize).run ops).cache.length ≤ maxSize) ∧
    (∀ (c : ImageCache α) (now : ℤ) (lat lng : ℚ) (v : α)
        (params : List (String × PyVal)),
      c.cache ≠ [] → c.maxSize ≤ c.cache.length →
      ∃ k ts, ImageCache.oldestEntry c.cache = some (k, ts) ∧
        (∃ w, (k, ts, w) ∈ c.cache) ∧
        (∀ e ∈ c.cache, ts ≤ e.2.1) ∧
        (ImageCache.eraseKey c.cache k).length + 1 = c.cache.length ∧
        c.set now lat lng v params =
          some { c with
                  cache := ImageCache.setEntry (ImageCache.eraseKey c.cache k)
                    (make_key lat lng params) (now, v) }) := by
  constructor
  · intro ttlSeconds maxSize ops
    exact run_inv ops (ImageCache.init α ttlSeconds maxSize) (by simp [ImageCache.init])
  · intro c now lat lng v params hne hfull
    obtain ⟨k, ts, hold⟩ := ImageCache.oldestEntry_isSome_of_ne_nil c.cache hne
    obtain ⟨⟨w, hmem⟩, hmin⟩ := ImageCache.oldestEntry_spec c.cache k ts hold
    obtain ⟨tv, hfind⟩ := ImageCache.findEntry_isSome_of_mem c.cache k ts w hmem
    refine ⟨k, ts, hold, ⟨w, hmem⟩, hmin,
      ImageCache.eraseKey_length_of_find k tv c.cache hfind, ?_⟩
    simp [ImageCache.set, ImageCache.evictIfFull, if_pos hfull, hold]

/-- C1 witness: three inserts into a fresh cache of capacity 2 keep the
size at most 2, and a `set` on a concrete cache at capacity evicts the
minimum-timestamp entry. -/
theorem cache_size_invariant_and_eviction_witness :
    ((ImageCache.init Dict 100 2).run
        [CacheOp.set 0 1 2 [("a", PyVal.int 1)] [],
         CacheOp.set 1 3 4 [("b", PyVal.int 2)] [],
         CacheOp.set 2 5 6 [("c", PyVal.int 3)] []]).cache.length ≤ 2 ∧
    (∃ k ts,
      ImageCache.oldestEntry
        (⟨[(make_key 1 2 [], 5, [("a", PyVal.int 1)]),
           (make_key 1 2 [("q", PyVal.int 9)], 3, [("b", PyVal.int 2)])],
          100, 2, 0, 0, "x"⟩ : ImageCache Dict).cache = some (k, ts) ∧
      (∃ w, (k, ts, w) ∈
        (⟨[(make_key 1 2 [], 5, [("a", PyVal.int 1)]),
           (make_key 1 2 [("q", PyVal.int 9)], 3, [("b", PyVal.int 2)])],
          100, 2, 0, 0, "x"⟩ : ImageCache Dict).cache) ∧
      (∀ e ∈ (⟨[(make_key 1 2 [], 5, [("a", PyVal.int 1)]),
           (make_key 1 2 [("q", PyVal.int 9)], 3, [("b", PyVal.int 2)])],
          100, 2, 0, 0, "x"⟩ : ImageCache Dict).cache, ts ≤ e.2.1) ∧
      (ImageCache.eraseKey
        (⟨[(make_key 1 2 [], 5, [("a", PyVal.int 1)]),
           (make_key 1 2 [("q", PyVal.int 9)], 3, [("b", PyVal.int 2)])],
          100, 2, 0, 0, "x"⟩ : ImageCache Dict).cache k).length + 1 = 2 ∧
      (⟨[(make_key 1 2 [], 5, [("a", PyVal.int 1)]),
         (make_key 1 2 [("q", PyVal.int 9)], 3, [("b", PyVal.int 2)])],
        100, 2, 0, 0, "x"⟩ : ImageCache Dict).set 9 1 2 [("d", PyVal.int 4)] [] =
        some { (⟨[(make_key 1 2 [], 5, [("a", PyVal.int 1)]),
             (make_key 1 2 [("q", PyVal.int 9)], 3, [("b", PyVal.int 2)])],
            100, 2, 0, 0, "x"⟩ : ImageCache Dict) with
                cache := ImageCache.setEntry
                  (ImageCache.eraseKey
                    (⟨[(make_key 1 2 [], 5, [("a", PyVal.int 1)]),
                       (make_key 1 2 [("q", PyVal.int 9)], 3, [("b", PyVal.int 2)])],
                      100, 2, 0, 0, "x"⟩ : ImageCache Dict).cache k)
                  (make_key 1 2 []) (9, [("d", PyVal.int 4)]) }) :=
  ⟨(cache_size_invariant_and_eviction Dict).1 100 2 _,
   (cache_size_invariant_and_eviction Dict).2 _ 9 1 2 [("d", PyVal.int 4)] []
     (by decide) (by decide)⟩

/-- C2 witness: the hit, expiry and absent cases evaluated on a concrete
cache holding one entry inserted at time 5 with TTL 100. -/
theorem get_spec_witness :
    ((⟨[(make_key 1 2 [], 5, [("a", PyVal.int 1)])],
        100, 2, 3, 4, "unnamed"⟩ : ImageCache Dict).get 6 1 2 []).1 =
      some [("a", PyVal.int 1)] ∧
    ((⟨[(make_key 1 2 [], 5, [("a", PyVal.int 1)])],
        100, 2, 3, 4, "unnamed"⟩ : ImageCache Dict).get 105 1 2 []) =
      (none, ⟨[], 100, 2, 3, 5, "unnamed"⟩) ∧
    ((⟨[(make_key 1 2 [], 5, [("a", PyVal.int 1)])],
        100, 2, 3, 4, "unnamed"⟩ : ImageCache Dict).get 6 1 2
        [("q", PyVal.int 9)]).1 = none := by
  refine ⟨?_, ?_, ?_⟩
  · rw [(get_spec _ 6 1 2 []).1 5 [("a", PyVal.int 1)]
      (by simp [ImageCache.findEntry]) (by decide)]
  · rw [(get_spec _ 105 1 2 []).2.1 5 [("a", PyVal.int 1)]
      (by simp [ImageCache.findEntry]) (by decide)]
    simp [ImageCache.eraseKey]
  · rw [(get_spec _ 6 1 2 [("q", PyVal.int 9)]).2.2.1
      (by simp [ImageCache.findEntry, make_key, sortParams, List.insertionSort])]

/-!  Claim about the retry logic. -/

/-- C4: the decorated fetch makes at most 3 attempts; a non-2xx HTTP
response is surfaced immediately with no retry and no backoff sleep;
every retried (non-final) attempt failed with a transient error (timeout
or network error); the backoff sleeps after attempts 1, 2, ... are
`max(1, min(2^(n-1), 10))` seconds — starting at 1 s, doubling, capped at
10 s; when all 3 attempts fail transiently the third failure is
surfaced; and two timeouts followed by a 2xx response yield the success
payload after 3 attempts with sleeps of 1 s and 2 s. -/
theorem fetch_with_retry_spec :
    (∀ outcomes : ℕ → AttemptOutcome,
      (fetch_with_retry outcomes).attemptsMade ≤ 3) ∧
    (∀ (outcomes : ℕ → AttemptOutcome) (s : ℕ) (b : String),
      outcomes 1 = AttemptOutcome.response s b → ¬(200 ≤ s ∧ s < 300) →
      fetch_with_retry outcomes =
        ⟨.error (.httpStatus s b), 1, []⟩) ∧
    (∀ (outcomes : ℕ → AttemptOutcome) (k : ℕ), 1 ≤ k →
      k < (fetch_with_retry outcomes).attemptsMade →
      ∃ e, attemptResult (outcomes k) = .error e ∧ isRetryable e = true) ∧
    (∀ outcomes : ℕ → AttemptOutcome,
      (fetch_with_retry outcomes).waits =
        (List.range ((fetch_with_retry outcomes).attemptsMade - 1)).map
          (fun i => wait_exponential (1 + i))) ∧
    (wait_exponential 1 = 1 ∧
      (∀ k : ℕ, 1 ≤ k →
        wait_exponential (k + 1) = min (2 * wait_exponential k) 10) ∧
      (∀ k : ℕ, wait_exponential k ≤ 10)) ∧
    (∀ (outcomes : ℕ → AttemptOutcome) (e₁ e₂ e₃ : FetchFailure),
      attemptResult (outcomes 1) = .error e₁ → isRetryable e₁ = true →
      attemptResult (outcomes 2) = .error e₂ → isRetryable e₂ = true →
      attemptResult (outcomes 3) = .error e₃ →
      (fetch_with_retry outcomes).result = .error e₃) ∧
    (∀ (outcomes : ℕ → AttemptOutcome) (s : ℕ) (b : String),
      outcomes 1 = AttemptOutcome.timeout →
      outcomes 2 = AttemptOutcome.timeout →
      outcomes 3 = AttemptOutcome.response s b → 200 ≤ s → s < 300 →
      fetch_with_retry outcomes = ⟨.ok (s, b), 3, [1, 2]⟩) := by
  refine ⟨?_, ?_, ?_, ?_, ⟨rfl, ?_, ?_⟩, ?_, ?_⟩
  · intro outcomes
    exact retryGo_attempts_le outcomes 2 1
  · intro outcomes s b h1 h2xx
    have h : attemptResult (outcomes 1) = .error (.httpStatus s b) := by
      rw [h1]; simp [attemptResult, h2xx]
    simp [fetch_with_retry, retryGo, h, isRetryable]
  · intro outcomes k hk hlt
    exact retryGo_intermediate outcomes 2 1 k hk hlt
  · intro outcomes
    exact retryGo_waits outcomes 2 1
  · intro k hk
    have hk1 : k - 1 + 1 = k := by omega
    have hpow : 2 ^ k = 2 * 2 ^ (k - 1) := by
      conv_lhs => rw [← hk1]
      rw [pow_succ]
      ring
    have hone : 1 ≤ 2 ^ (k - 1) := Nat.one_le_two_pow
    simp only [wait_exponential, Nat.add_sub_cancel]
    omega
  · intro k
    have hone : 1 ≤ 2 ^ (k - 1) := Nat.one_le_two_pow
    simp only [wait_exponential]
    omega
  · intro outcomes e₁ e₂ e₃ h1 r1 h2 r2 h3
    simp [fetch_with_retry, retryGo, h1, r1, h2, r2, h3]
  · intro outcomes s b h1 h2 h3 hs1 hs2
    have a1 : attemptResult (outcomes 1) = .error .timeout := by
      rw [h1]; rfl
    have a2 : attemptResult (outcomes 2) = .error .timeout := by
      rw [h2]; rfl
    have a3 : attemptResult (outcomes 3) = .ok (s, b) := by
      rw [h3]; simp [attemptResult, hs1, hs2]
    simp [fetch_with_retry, retryGo, a1, a2, a3, isRetryable]
    decide

/-!  Claim about street-view parameter normalisation. -/

set_option maxRecDepth 10000 in
theorem facingOf_band :
    ∀ n : Fin 360, facingOf ((n : ℕ) : ℤ) =
      compassLabels ⟨(n : ℕ) / 45, by omega⟩ := by
  decide

/-- C8: `get_street_view` normalises the heading into [0,360) by modulo,
clamps pitch into [-90,90] and fov into [20,120]; the compass label is
the label of the 45°-wide band containing the normalised heading, eight
contiguous bands starting at 0 (North, Northeast, ...); the pitch
descriptor is eye-level exactly for |pitch| ≤ 15, else looking-up /
looking-down; and heading 370 normalises to 10 with label "North". -/
theorem get_street_view_spec :
    (∀ heading pitch fov : ℤ,
      0 ≤ (get_street_view_params heading pitch fov).heading ∧
      (get_street_view_params heading pitch fov).heading < 360 ∧
      -90 ≤ (get_street_view_params heading pitch fov).pitch ∧
      (get_street_view_params heading pitch fov).pitch ≤ 90 ∧
      20 ≤ (get_street_view_params heading pitch fov).fov ∧
      (get_street_view_params heading pitch fov).fov ≤ 120 ∧
      (get_street_view_params heading pitch fov).heading = heading % 360 ∧
      (get_street_view_params heading pitch fov).pitch =
        max (-90) (min 90 pitch) ∧
      (get_street_view_params heading pitch fov).fov =
        max 20 (min 120 fov)) ∧
    (∀ (heading pitch fov : ℤ) (i : Fin 8),
      45 * ((i : ℕ) : ℤ) ≤ (get_street_view_params heading pitch fov).heading →
      (get_street_view_params heading pitch fov).heading <
        45 * (((i : ℕ) : ℤ) + 1) →
      (get_street_view_params heading pitch fov).facing = compassLabels i) ∧
    (∀ heading pitch fov : ℤ,
      (|(get_street_view_params heading pitch fov).pitch| ≤ 15 →
        (get_street_view_params heading pitch fov).pitchDescription =
          "eye level") ∧
      (15 < (get_street_view_params heading pitch fov).pitch →
        (get_street_view_params heading pitch fov).pitchDescription =
          "looking up") ∧
      ((get_street_view_params heading pitch fov).pitch < -15 →
        (get_street_view_params heading pitch fov).pitchDescription =
          "looking down")) ∧
    (get_street_view_params 370 0 90).heading = 10 ∧
    (get_street_view_params 370 0 90).facing = "North" := by
  refine ⟨?_, ?_, ?_, by decide, by decide⟩
  · intro heading pitch fov
    have e0 : (0:ℤ) ≤ heading % 360 := Int.emod_nonneg heading (by norm_num)
    have e1 : heading % 360 < 360 := Int.emod_lt_of_pos heading (by norm_num)
    simp only [get_street_view_params]
    refine ⟨e0, e1, ?_, ?_, ?_, ?_, trivial, trivial, trivial⟩ <;> omega
  · intro heading pitch fov i h1 h2
    simp only [get_street_view_params] at h1 h2 ⊢
    have e0 : (0:ℤ) ≤ heading % 360 := Int.emod_nonneg heading (by norm_num)
    have e1 : heading % 360 < 360 := Int.emod_lt_of_pos heading (by norm_num)
    have hnat : heading % 360 = (((heading % 360).toNat : ℕ) : ℤ) :=
      (Int.toNat_of_nonneg e0).symm
    have hlt : (heading % 360).toNat < 360 := by omega
    have hface := facingOf_band ⟨(heading % 360).toNat, hlt⟩
    have hdiv : (heading % 360).toNat / 45 = (i : ℕ) := by omega
    rw [hnat, hface]
    exact congrArg compassLabels (Fin.ext hdiv)
  · intro heading pitch fov
    simp only [get_street_view_params, pitchDescOf]
    refine ⟨?_, ?_, ?_⟩ <;> intro hh
    · rw [abs_le] at hh
      rw [if_pos (by omega)]
    · rw [if_neg (by omega), if_pos (by omega)]
    · rw [if_neg (by omega), if_neg (by omega)]

/-- C8 witness: concrete evaluations — heading 370 falls in band 0,
heading 100 with pitch 30 is in the East band looking up, pitch -100 is
clamped to -90 and described as looking down. -/
theorem get_street_view_spec_witness :
    (get_street_view_params 370 0 90).facing = compassLabels 0 ∧
    (get_street_view_params 100 30 90).facing = compassLabels 2 ∧
    (get_street_view_params 100 30 90).pitchDescription = "looking up" ∧
    (get_street_view_params 100 (-100) 90).pitchDescription = "looking down" ∧
    (get_street_view_params 0 3 500).pitchDescription = "eye level" :=
  ⟨get_street_view_spec.2.1 370 0 90 0 (by decide) (by decide),
   get_street_view_spec.2.1 100 30 90 2 (by decide) (by decide),
   (get_street_view_spec.2.2.1 100 30 90).2.1 (by decide),
   (get_street_view_spec.2.2.1 100 (-100) 90).2.2 (by decide),
   (get_street_view_spec.2.2.1 0 3 500).1 (by decide)⟩

/-!  Claim about the relative-direction partition. -/

theorem pymod_bounds (x : ℚ) : 0 ≤ pymod x 360 ∧ pymod x 360 < 360 := by
  have h0 := Int.floor_le (x / 360)
  have h1 := Int.lt_floor_add_one (x / 360)
  unfold pymod
  constructor <;> linarith

theorem inSector_sectorIndex (rel : ℚ) :
    inSector (sectorIndex rel) rel := by
  unfold sectorIndex
  split_ifs with g1 g2 g3 g4 g5 g6 g7 g8
  · exact Or.inl g1
  · exact ⟨by push_cast; linarith, by push_cast; linarith⟩
  · exact ⟨by push_cast; linarith, by push_cast; linarith⟩
  · exact ⟨by push_cast; linarith, by push_cast; linarith⟩
  · exact ⟨by push_cast; linarith, by push_cast; linarith⟩
  · exact ⟨by push_cast; linarith, by push_cast; linarith⟩
  · exact ⟨by push_cast; linarith, by push_cast; linarith⟩
  · exact ⟨by push_cast; linarith, by push_cast; linarith⟩
  · exact Or.inr (by linarith)

set_option maxHeartbeats 2000000 in
theorem inSector_unique (rel : ℚ) :
    ∀ i : Fin 8, inSector i rel → i = sectorIndex rel := by
  intro i hi
  obtain ⟨iv, hlt⟩ := i
  unfold sectorIndex
  interval_cases iv
  · rcases (hi : rel ≤ 22.5 ∨ 337.5 < rel) with h | h
    · rw [if_pos h]
      rfl
    · split_ifs <;> first | rfl | (exfalso; linarith)
  · obtain ⟨ha, hb⟩ :=
      (hi : 22.5 + 45 * ((0:ℕ):ℚ) < rel ∧ rel ≤ 22.5 + 45 * (((0:ℕ):ℚ) + 1))
    push_cast at ha hb
    split_ifs <;> first | rfl | (exfalso; linarith)
  · obtain ⟨ha, hb⟩ :=
      (hi : 22.5 + 45 * ((1:ℕ):ℚ) < rel ∧ rel ≤ 22.5 + 45 * (((1:ℕ):ℚ) + 1))
    push_cast at ha hb
    split_ifs <;> first | rfl | (exfalso; linarith)
  · obtain ⟨ha, hb⟩ :=
      (hi : 22.5 + 45 * ((2:ℕ):ℚ) < rel ∧ rel ≤ 22.5 + 45 * (((2:ℕ):ℚ) + 1))
    push_cast at ha hb
    split_ifs <;> first | rfl | (exfalso; linarith)
  · obtain ⟨ha, hb⟩ :=
      (hi : 22.5 + 45 * ((3:ℕ):ℚ) < rel ∧ rel ≤ 22.5 + 45 * (((3:ℕ):ℚ) + 1))
    push_cast at ha hb
    split_ifs <;> first | rfl | (exfalso; linarith)
  · obtain ⟨ha, hb⟩ :=
      (hi : 22.5 + 45 * ((4:ℕ):ℚ) < rel ∧ rel ≤ 22.5 + 45 * (((4:ℕ):ℚ) + 1))
    push_cast at ha hb
    split_ifs <;> first | rfl | (exfalso; linarith)
  · obtain ⟨ha, hb⟩ :=
      (hi : 22.5 + 45 * ((5:ℕ):ℚ) < rel ∧ rel ≤ 22.5 + 45 * (((5:ℕ):ℚ) + 1))
    push_cast at ha hb
    split_ifs <;> first | rfl | (exfalso; linarith)
  · obtain ⟨ha, hb⟩ :=
      (hi : 22.5 + 45 * ((6:ℕ):ℚ) < rel ∧ rel ≤ 22.5 + 45 * (((6:ℕ):ℚ) + 1))
    push_cast at ha hb
    split_ifs <;> first | rfl | (exfalso; linarith)

set_option maxHeartbeats 2000000 in
theorem relative_classify (u b : ℚ) :
    ∀ i : Fin 8, inSector i (relativeAngle u b) →
      get_relative_direction u b = sectorLabels i := by
  intro i hi
  simp only [get_relative_direction]
  obtain ⟨iv, hlt⟩ := i
  interval_cases iv
  · rcases (hi : relativeAngle u b ≤ 22.5 ∨ 337.5 < relativeAngle u b) with h | h
    · rw [if_pos (Or.inl h)]
      rfl
    · rw [if_pos (Or.inr h)]
      rfl
  · obtain ⟨ha, hb⟩ := (hi : 22.5 + 45 * ((0:ℕ):ℚ) < relativeAngle u b ∧
      relativeAngle u b ≤ 22.5 + 45 * (((0:ℕ):ℚ) + 1))
    push_cast at ha hb
    rw [if_neg (by push_neg; exact ⟨by linarith, by linarith⟩),
      if_pos ⟨by linarith, by linarith⟩]
    rfl
  · obtain ⟨ha, hb⟩ := (hi : 22.5 + 45 * ((1:ℕ):ℚ) < relativeAngle u b ∧
      relativeAngle u b ≤ 22.5 + 45 * (((1:ℕ):ℚ) + 1))
    push_cast at ha hb
    rw [if_neg (by push_neg; exact ⟨by linarith, by linarith⟩),
      if_neg (by push_neg; intro; linarith),
      if_pos ⟨by linarith, by linarith⟩]
    rfl
  · obtain ⟨ha, hb⟩ := (hi : 22.5 + 45 * ((2:ℕ):ℚ) < relativeAngle u b ∧
      relativeAngle u b ≤ 22.5 + 45 * (((2:ℕ):ℚ) + 1))
    push_cast at ha hb
    rw [if_neg (by push_neg; exact ⟨by linarith, by linarith⟩),
      if_neg (by push_neg; intro; linarith),
      if_neg (by push_neg; intro; linarith),
      if_pos ⟨by linarith, by linarith⟩]
    rfl
  · obtain ⟨ha, hb⟩ := (hi : 22.5 + 45 * ((3:ℕ):ℚ) < relativeAngle u b ∧
      relativeAngle u b ≤ 22.5 + 45 * (((3:ℕ):ℚ) + 1))
    push_cast at ha hb
    rw [if_neg (by push_neg; exact ⟨by linarith, by linarith⟩),
      if_neg (by push_neg; intro; linarith),
      if_neg (by push_neg; intro; linarith),
      if_neg (by push_neg; intro; linarith),
      if_pos ⟨by linarith, by linarith⟩]
    rfl
  · obtain ⟨ha, hb⟩ := (hi : 22.5 + 45 * ((4:ℕ):ℚ) < relativeAngle u b ∧
      relativeAngle u b ≤ 22.5 + 45 * (((4:ℕ):ℚ) + 1))
    push_cast at ha hb
    rw [if_neg (by push_neg; exact ⟨by linarith, by linarith⟩),
      if_neg (by push_neg; intro; linarith),
      if_neg (by push_neg; intro; linarith),
      if_neg (by push_neg; intro; linarith),
      if_neg (by push_neg; intro; linarith),
      if_pos ⟨by linarith, by linarith⟩]
    rfl
  · obtain ⟨ha, hb⟩ := (hi : 22.5 + 45 * ((5:ℕ):ℚ) < relativeAngle u b ∧
      relativeAngle u b ≤ 22.5 + 45 * (((5:ℕ):ℚ) + 1))
    push_cast at ha hb
    rw [if_neg (by push_neg; exact ⟨by linarith, by linarith⟩),
      if_neg (by push_neg; intro; linarith),
      if_neg (by push_neg; intro; linarith),
      if_neg (by push_neg; intro; linarith),
      if_neg (by push_neg; intro; linarith),
      if_neg (by push_neg; intro; linarith),
      if_pos ⟨by linarith, by linarith⟩]
    rfl
  · obtain ⟨ha, hb⟩ := (hi : 22.5 + 45 * ((6:ℕ):ℚ) < relativeAngle u b ∧
      relativeAngle u b ≤ 22.5 + 45 * (((6:ℕ):ℚ) + 1))
    push_cast at ha hb
    rw [if_neg (by push_neg; exact ⟨by linarith, by linarith⟩),
      if_neg (by push_neg; intro; linarith),
      if_neg (by push_neg; intro; linarith),
      if_neg (by push_neg; intro; linarith),
      if_neg (by push_neg; intro; linarith),
      if_neg (by push_neg; intro; linarith),
      if_neg (by push_neg; intro; linarith)]
    rfl

/-- C9: the relative angle `(bearing - heading + 360) % 360` always lies
in [0,360); the eight 45°-wide sectors (boundary convention
low < relative ≤ high, with the first sector wrapping to include
relative ≤ 22.5) are pairwise disjoint and cover [0,360) — every angle
lies in exactly one; and `get_relative_direction` returns precisely the
label of that sector. -/
theorem relative_direction_partition :
    ∀ user_heading bearing_to_dest : ℚ,
      (0 ≤ relativeAngle user_heading bearing_to_dest ∧
        relativeAngle user_heading bearing_to_dest < 360) ∧
      (∃! i : Fin 8,
        inSector i (relativeAngle user_heading bearing_to_dest)) ∧
      (∀ i : Fin 8,
        inSector i (relativeAngle user_heading bearing_to_dest) →
        get_relative_direction user_heading bearing_to_dest =
          sectorLabels i) := by
  intro u b
  obtain ⟨h0, h1⟩ := pymod_bounds (b - u + 360)
  exact ⟨⟨h0, h1⟩,
    ⟨sectorIndex (relativeAngle u b),
      inSector_sectorIndex (relativeAngle u b),
      fun j hj => inSector_unique (relativeAngle u b) j hj⟩,
    relative_classify u b⟩

/-- C9 witness: facing North (heading 0) with bearing 90 the relative
angle is 90, which lies in sector 2 only, and the function reports the
3 o\x27clock label. -/
theorem relative_direction_partition_witness :
    get_relative_direction 0 90 = sectorLabels 2 ∧
    inSector 2 (relativeAngle 0 90) :=
  have hrel : relativeAngle 0 90 = 90 := by
    unfold relativeAngle pymod
    norm_num
  have hin : inSector 2 (relativeAngle 0 90) := by
    rw [hrel]
    exact ⟨by norm_num, by norm_num⟩
  ⟨(relative_direction_partition 0 90).2.2 2 hin, hin⟩

/-- C4 witness: a run that times out twice then gets HTTP 200 succeeds
after 3 attempts with backoff sleeps [1, 2]; a run whose first response
is HTTP 500 fails immediately with no retry. -/
theorem fetch_with_retry_spec_witness :
    fetch_with_retry
        (fun n => if n ≤ 2 then .timeout else .response 200 "ok") =
      ⟨.ok (200, "ok"), 3, [1, 2]⟩ ∧
    fetch_with_retry (fun _ => .response 500 "boom") =
      ⟨.error (.httpStatus 500 "boom"), 1, []⟩ :=
  ⟨fetch_with_retry_spec.2.2.2.2.2.2
      (fun n => if n ≤ 2 then .timeout else .response 200 "ok") 200 "ok"
      (by decide) (by decide) (by decide) (by decide) (by decide),
   fetch_with_retry_spec.2.1 (fun _ => .response 500 "boom") 500 "boom"
      rfl (by decide)⟩

/-!  Claim about the panoramic fan-out. -/

theorem Dict.lookup_setItem_self (d : Dict) (k : String) (v : PyVal) :
    (d.setItem k v).lookup k = some v := by
  induction d with
  | nil => simp [Dict.setItem, Dict.lookup]
  | cons e rest ih =>
      obtain ⟨k2, v2⟩ := e
      by_cases h : k2 = k
      · simp [Dict.setItem, Dict.lookup, h]
      · simp [Dict.setItem, Dict.lookup, h, ih]

theorem Dict.lookup_setItem_ne (d : Dict) (k k2 : String) (v : PyVal)
    (hne : k ≠ k2) : (d.setItem k v).lookup k2 = d.lookup k2 := by
  induction d with
  | nil => simp [Dict.setItem, Dict.lookup, hne]
  | cons e rest ih =>
      obtain ⟨k3, v3⟩ := e
      by_cases h : k3 = k
      · subst h
        simp [Dict.setItem, Dict.lookup, hne]
      · simp [Dict.setItem, Dict.lookup, h, ih]

theorem legView_direction (dir : String) (o : LegOutcome) :
    (legView dir o).lookup "direction" = some (PyVal.str dir) := by
  cases o with
  | exception msg => simp [legView, Dict.lookup]
  | result d => exact Dict.lookup_setItem_self d "direction" (PyVal.str dir)

theorem legView_error_iff (dir : String) (o : LegOutcome)
    (hw : legWellFormed o) :
    ((legView dir o).lookup "error" ≠ none ↔ legSucceeded o = false) := by
  cases o with
  | exception msg => simp [legView, Dict.lookup, legSucceeded]
  | result d =>
      have hne : ("direction" : String) ≠ "error" := by decide
      rw [show legView dir (.result d) = d.setItem "direction" (.str dir) from
        rfl, Dict.lookup_setItem_ne d "direction" "error" (.str dir) hne]
      obtain ⟨h1, h2⟩ := hw
      cases hs : legSucceeded (.result d) with
      | true => simp [h2 hs]
      | false => simp [h1 hs]

/-- C5: the panoramic fan-out yields exactly 4 view entries tagged
North/East/South/West; it consults the fetch outcome at exactly the
headings 0/90/180/270 (one failing leg cannot affect the others'
entries); the overall success flag is true iff all 4 legs succeeded; and,
for legs shaped like `get_street_view` results, an entry carries an error
exactly when its own leg failed. -/
theorem explore_panoramic_spec :
    (∀ fetch : ℤ → LegOutcome,
      (explore_panoramic fetch).views.length = 4) ∧
    (∀ fetch : ℤ → LegOutcome,
      (explore_panoramic fetch).views.map (fun d => d.lookup "direction") =
        [some (PyVal.str "North"), some (PyVal.str "East"),
         some (PyVal.str "South"), some (PyVal.str "West")]) ∧
    (∀ fetch fetch2 : ℤ → LegOutcome,
      fetch 0 = fetch2 0 → fetch 90 = fetch2 90 → fetch 180 = fetch2 180 →
      fetch 270 = fetch2 270 →
      explore_panoramic fetch = explore_panoramic fetch2) ∧
    (∀ fetch : ℤ → LegOutcome,
      ((explore_panoramic fetch).success = true ↔
        (legSucceeded (fetch 0) = true ∧ legSucceeded (fetch 90) = true ∧
         legSucceeded (fetch 180) = true ∧
         legSucceeded (fetch 270) = true))) ∧
    (∀ fetch : ℤ → LegOutcome, (∀ hd : ℤ, legWellFormed (fetch hd)) →
      (((explore_panoramic fetch).views.getD 0 []).lookup "error" ≠ none ↔
        legSucceeded (fetch 0) = false) ∧
      (((explore_panoramic fetch).views.getD 1 []).lookup "error" ≠ none ↔
        legSucceeded (fetch 90) = false) ∧
      (((explore_panoramic fetch).views.getD 2 []).lookup "error" ≠ none ↔
        legSucceeded (fetch 180) = false) ∧
      (((explore_panoramic fetch).views.getD 3 []).lookup "error" ≠ none ↔
        legSucceeded (fetch 270) = false)) := by
  refine ⟨?_, ?_, ?_, ?_, ?_⟩
  · intro fetch
    simp [explore_panoramic, panoramicHeadings]
  · intro fetch
    simp [explore_panoramic, panoramicHeadings, legView_direction]
  · intro fetch fetch2 h0 h90 h180 h270
    simp [explore_panoramic, panoramicHeadings, h0, h90, h180, h270]
  · intro fetch
    simp [explore_panoramic, panoramicHeadings, List.all, Bool.and_eq_true,
      and_assoc]
  · intro fetch hw
    exact ⟨legView_error_iff "North" (fetch 0) (hw 0),
      legView_error_iff "East" (fetch 90) (hw 90),
      legView_error_iff "South" (fetch 180) (hw 180),
      legView_error_iff "West" (fetch 270) (hw 270)⟩

/-- C5 witness: the scenario in which the East leg fails and the other
three succeed — 4 entries, overall success false, only the East entry
carries an error. -/
theorem explore_panoramic_spec_witness :
    (explore_panoramic (fun h =>
        if h = 90 then
          LegOutcome.result
            [("success", PyVal.bool false), ("error", PyVal.str "boom")]
        else LegOutcome.result [("success", PyVal.bool true)])).views.length =
      4 ∧
    (explore_panoramic (fun h =>
        if h = 90 then
          LegOutcome.result
            [("success", PyVal.bool false), ("error", PyVal.str "boom")]
        else LegOutcome.result [("success", PyVal.bool true)])).success ≠
      true ∧
    ((explore_panoramic (fun h =>
        if h = 90 then
          LegOutcome.result
            [("success", PyVal.bool false), ("error", PyVal.str "boom")]
        else LegOutcome.result [("success", PyVal.bool true)])).views.getD 1
        []).lookup "error" ≠ none ∧
    ¬(((explore_panoramic (fun h =>
        if h = 90 then
          LegOutcome.result
            [("success", PyVal.bool false), ("error", PyVal.str "boom")]
        else LegOutcome.result [("success", PyVal.bool true)])).views.getD 0
        []).lookup "error" ≠ none) := by
  have hw : ∀ hd : ℤ, legWellFormed ((fun h =>
      if h = 90 then
        LegOutcome.result
          [("success", PyVal.bool false), ("error", PyVal.str "boom")]
      else LegOutcome.result [("success", PyVal.bool true)]) hd) := by
    intro hd
    by_cases h : hd = 90 <;> simp [h, legWellFormed, legSucceeded, Dict.lookup,
      PyVal.truthy]
  refine ⟨explore_panoramic_spec.1 _, ?_, ?_, ?_⟩
  · intro hs
    have h2 := (explore_panoramic_spec.2.2.2.1 _).mp hs
    have : legSucceeded ((fun h : ℤ =>
        if h = 90 then
          LegOutcome.result
            [("success", PyVal.bool false), ("error", PyVal.str "boom")]
        else LegOutcome.result [("success", PyVal.bool true)]) 90) = true :=
      h2.2.1
    simp [legSucceeded, Dict.lookup, PyVal.truthy] at this
  · exact ((explore_panoramic_spec.2.2.2.2 _ hw).2.1).mpr (by decide)
  · intro hc
    have := ((explore_panoramic_spec.2.2.2.2 _ hw).1).mp hc
    simp [legSucceeded, Dict.lookup, PyVal.truthy] at this

/-!  Claims about the cache-aware wrappers. -/

theorem get_snd_maxSize {α : Type} (c : ImageCache α) (now : ℤ)
    (lat lng : ℚ) (params : List (String × PyVal)) :
    ((c.get now lat lng params).2).maxSize = c.maxSize ∧
      ((c.get now lat lng params).2).ttl = c.ttl := by
  cases hfind : ImageCache.findEntry c.cache (make_key lat lng params) with
  | none => rw [ImageCache.get_absent c now lat lng params hfind]; exact ⟨rfl, rfl⟩
  | some tv =>
      obtain ⟨ts, v⟩ := tv
      by_cases hfresh : now - ts < c.ttl
      · rw [ImageCache.get_hit c now lat lng params ts v hfind hfresh]
        exact ⟨rfl, rfl⟩
      · rw [ImageCache.get_expired c now lat lng params ts v hfind hfresh]
        exact ⟨rfl, rfl⟩

theorem set_some_of_maxSize_pos {α : Type} (c : ImageCache α) (now : ℤ)
    (lat lng : ℚ) (v : α) (params : List (String × PyVal))
    (hmax : 0 < c.maxSize) :
    ∃ c2, c.set now lat lng v params = some c2 ∧
      ImageCache.findEntry c2.cache (make_key lat lng params) =
        some (now, v) := by
  by_cases hfull : c.maxSize ≤ c.cache.length
  · have hne : c.cache ≠ [] := by
      intro hnil
      rw [hnil] at hfull
      simp at hfull
      omega
    obtain ⟨k, ts, hold⟩ := ImageCache.oldestEntry_isSome_of_ne_nil c.cache hne
    refine ⟨{ c with
        cache := ImageCache.setEntry (ImageCache.eraseKey c.cache k)
          (make_key lat lng params) (now, v) }, ?_, ?_⟩
    · simp [ImageCache.set, ImageCache.evictIfFull, if_pos hfull, hold]
    · exact ImageCache.findEntry_setEntry_self _ _ _
  · rw [ImageCache.set_of_lt c now lat lng v params (not_le.mp hfull)]
    exact ⟨_, rfl, ImageCache.findEntry_setEntry_self _ _ _⟩

theorem cachedFetch_hit (c : ImageCache Dict) (now : ℤ) (lat lng : ℚ)
    (params : List (String × PyVal)) (fetchResult v : Dict)
    (hget : (c.get now lat lng params).1 = some v) (hv : v.truthy = true) :
    cachedFetch c now lat lng params fetchResult =
      some (v.setItem "from_cache" (.bool true),
        { (c.get now lat lng params).2 with
            cache := ImageCache.mutateValue (c.get now lat lng params).2.cache
              (make_key lat lng params)
              (v.setItem "from_cache" (.bool true)) },
        false) := by
  rcases hg : c.get now lat lng params with ⟨cq, c1⟩
  rw [hg] at hget
  simp only at hget
  subst hget
  simp only [cachedFetch, hg, hv, if_true]

theorem cachedFetch_miss (c : ImageCache Dict) (now : ℤ) (lat lng : ℚ)
    (params : List (String × PyVal)) (fetchResult : Dict)
    (hget : (c.get now lat lng params).1 = none) (hmax : 0 < c.maxSize) :
    ∃ c2, cachedFetch c now lat lng params fetchResult =
        some (fetchResult, c2, true) ∧
      (fetchResult.successTruthy = true →
        ImageCache.findEntry c2.cache (make_key lat lng params) =
          some (now, fetchResult)) ∧
      (fetchResult.successTruthy = false →
        c2 = (c.get now lat lng params).2) := by
  rcases hg : c.get now lat lng params with ⟨cq, c1⟩
  rw [hg] at hget
  simp only at hget
  subst hget
  cases hs : fetchResult.successTruthy with
  | true =>
      have hmax2 : 0 < c1.maxSize := by
        have h1 := (get_snd_maxSize c now lat lng params).1
        rw [hg] at h1
        simp only at h1
        omega
      obtain ⟨c2, hset, hfind⟩ := set_some_of_maxSize_pos
        c1 now lat lng fetchResult params hmax2
      refine ⟨c2, ?_, fun _ => hfind,
        fun hcontra => absurd hcontra (by decide)⟩
      simp only [cachedFetch, hg, hs, if_true, hset]
  | false =>
      refine ⟨c1, ?_, fun hcontra => absurd hcontra (by decide), fun _ => rfl⟩
      simp only [cachedFetch, hg, hs, Bool.false_eq_true, if_false]

/-- C3: for both cache-aware wrappers, a (truthy) cache hit returns the
stored payload marked as served-from-cache without performing a fetch;
a miss performs the fetch and returns its result, writing it into the
cache exactly when the fetch succeeded — a failed fetch leaves the cache
contents untouched. -/
theorem cached_wrappers_spec :
    (∀ (c : ImageCache Dict) (now : ℤ) (lat lng : ℚ) (zoom : ℤ)
        (mapType : String) (fetchResult v : Dict),
      (c.get now lat lng (overheadParams zoom mapType)).1 = some v →
      v.truthy = true →
      ∃ c2, cached_get_overhead_view c now lat lng zoom mapType fetchResult =
        some (v.setItem "from_cache" (.bool true), c2, false)) ∧
    (∀ (c : ImageCache Dict) (now : ℤ) (lat lng : ℚ) (zoom : ℤ)
        (mapType : String) (fetchResult : Dict),
      (c.get now lat lng (overheadParams zoom mapType)).1 = none →
      0 < c.maxSize →
      ∃ c2, cached_get_overhead_view c now lat lng zoom mapType fetchResult =
          some (fetchResult, c2, true) ∧
        (fetchResult.successTruthy = true →
          ImageCache.findEntry c2.cache
              (make_key lat lng (overheadParams zoom mapType)) =
            some (now, fetchResult)) ∧
        (fetchResult.successTruthy = false →
          c2 = (c.get now lat lng (overheadParams zoom mapType)).2)) ∧
    (∀ (c : ImageCache Dict) (now : ℤ) (lat lng : ℚ) (heading pitch fov : ℤ)
        (fetchResult v : Dict),
      (c.get now lat lng (streetParams heading pitch fov)).1 = some v →
      v.truthy = true →
      ∃ c2, cached_get_street_view c now lat lng heading pitch fov
          fetchResult =
        some (v.setItem "from_cache" (.bool true), c2, false)) ∧
    (∀ (c : ImageCache Dict) (now : ℤ) (lat lng : ℚ) (heading pitch fov : ℤ)
        (fetchResult : Dict),
      (c.get now lat lng (streetParams heading pitch fov)).1 = none →
      0 < c.maxSize →
      ∃ c2, cached_get_street_view c now lat lng heading pitch fov
            fetchResult =
          some (fetchResult, c2, true) ∧
        (fetchResult.successTruthy = true →
          ImageCache.findEntry c2.cache
              (make_key lat lng (streetParams heading pitch fov)) =
            some (now, fetchResult)) ∧
        (fetchResult.successTruthy = false →
          c2 = (c.get now lat lng (streetParams heading pitch fov)).2)) := by
  refine ⟨?_, ?_, ?_, ?_⟩
  · intro c now lat lng zoom mapType fetchResult v hget hv
    exact ⟨_, cachedFetch_hit c now lat lng (overheadParams zoom mapType)
      fetchResult v hget hv⟩
  · intro c now lat lng zoom mapType fetchResult hget hmax
    exact cachedFetch_miss c now lat lng (overheadParams zoom mapType)
      fetchResult hget hmax
  · intro c now lat lng heading pitch fov fetchResult v hget hv
    exact ⟨_, cachedFetch_hit c now lat lng (streetParams heading pitch fov)
      fetchResult v hget hv⟩
  · intro c now lat lng heading pitch fov fetchResult hget hmax
    exact cachedFetch_miss c now lat lng (streetParams heading pitch fov)
      fetchResult hget hmax

/-- C3 witness: a concrete truthy hit is served marked-from-cache with no
fetch; a concrete miss fetches and caches the successful payload; a
concrete failed fetch is returned but leaves the cache contents
untouched. -/
theorem cached_wrappers_spec_witness :
    (∃ c2, cached_get_overhead_view
        (⟨[(make_key 1 2 (overheadParams 3 "satellite"), 0,
            [("success", PyVal.bool true)])], 100, 10, 4, 4, "overhead"⟩ :
          ImageCache Dict) 1 1 2 3 "satellite" [] =
      some ((Dict.setItem [("success", PyVal.bool true)] "from_cache"
        (.bool true)), c2, false)) ∧
    (∃ c2, cached_get_overhead_view (ImageCache.init Dict 100 2) 5 1 2 3
          "satellite" [("success", PyVal.bool true)] =
        some ([("success", PyVal.bool true)], c2, true) ∧
      (Dict.successTruthy [("success", PyVal.bool true)] = true →
        ImageCache.findEntry c2.cache
            (make_key 1 2 (overheadParams 3 "satellite")) =
          some (5, [("success", PyVal.bool true)])) ∧
      (Dict.successTruthy [("success", PyVal.bool true)] = false →
        c2 = ((ImageCache.init Dict 100 2).get 5 1 2
          (overheadParams 3 "satellite")).2)) ∧
    (∃ c2, cached_get_street_view (ImageCache.init Dict 1800 2) 5 1 2 0 0 90
          [("success", PyVal.bool false), ("error", PyVal.str "down")] =
        some ([("success", PyVal.bool false), ("error", PyVal.str "down")],
          c2, true) ∧
      (Dict.successTruthy
          [("success", PyVal.bool false), ("error", PyVal.str "down")] =
            true →
        ImageCache.findEntry c2.cache (make_key 1 2 (streetParams 0 0 90)) =
          some (5, [("success", PyVal.bool false),
            ("error", PyVal.str "down")])) ∧
      (Dict.successTruthy
          [("success", PyVal.bool false), ("error", PyVal.str "down")] =
            false →
        c2 = ((ImageCache.init Dict 1800 2).get 5 1 2
          (streetParams 0 0 90)).2)) := by
  refine ⟨?_, ?_, ?_⟩
  · exact cached_wrappers_spec.1
      ⟨[(make_key 1 2 (overheadParams 3 "satellite"), 0,
        [("success", PyVal.bool true)])], 100, 10, 4, 4, "overhead"⟩
      1 1 2 3 "satellite" [] [("success", PyVal.bool true)]
      (by rw [ImageCache.get_hit _ 1 1 2 (overheadParams 3 "satellite") 0
        [("success", PyVal.bool true)] (by simp [ImageCache.findEntry])
        (by decide)])
      (by decide)
  · exact cached_wrappers_spec.2.1 (ImageCache.init Dict 100 2) 5 1 2 3
      "satellite" [("success", PyVal.bool true)]
      (by rw [ImageCache.get_absent _ 5 1 2 (overheadParams 3 "satellite")
        (by simp [ImageCache.findEntry, ImageCache.init])])
      (by decide)
  · exact cached_wrappers_spec.2.2.2 (ImageCache.init Dict 1800 2) 5 1 2 0 0
      90 [("success", PyVal.bool false), ("error", PyVal.str "down")]
      (by rw [ImageCache.get_absent _ 5 1 2 (streetParams 0 0 90)
        (by simp [ImageCache.findEntry, ImageCache.init])])
      (by decide)

/-!  Claim about cache-entry ownership (aliasing of the stored payload). -/

theorem findEntry_mutateValue {α : Type} (k : CacheKey) (ts : ℤ) (v w : α) :
    ∀ l : List (CacheKey × ℤ × α), ImageCache.findEntry l k = some (ts, v) →
      ImageCache.findEntry (ImageCache.mutateValue l k w) k = some (ts, w) := by
  intro l
  induction l with
  | nil => intro h; simp [ImageCache.findEntry] at h
  | cons e rest ih =>
      intro hfind
      obtain ⟨k2, ts2, v2⟩ := e
      simp only [ImageCache.mutateValue, List.map_cons] at *
      by_cases h : k2 = k
      · subst h
        simp only [ImageCache.findEntry, if_pos rfl] at hfind
        cases hfind
        rw [show (if ((k2, ts, v) : CacheKey × ℤ × α).1 = k2
            then (((k2, ts, v) : CacheKey × ℤ × α).1,
              ((k2, ts, v) : CacheKey × ℤ × α).2.1, w)
            else (k2, ts, v)) = (k2, ts, w) from if_pos rfl]
        simp [ImageCache.findEntry]
      · rw [show (if ((k2, ts2, v2) : CacheKey × ℤ × α).1 = k
            then (((k2, ts2, v2) : CacheKey × ℤ × α).1,
              ((k2, ts2, v2) : CacheKey × ℤ × α).2.1, w)
            else (k2, ts2, v2)) = (k2, ts2, v2) from if_neg h]
        simp only [ImageCache.findEntry, if_neg h] at hfind ⊢
        exact ih hfind

/-- C7 (amended): serving a truthy cache hit through
`cached_get_overhead_view` mutates the stored entry in place — the cache
entry holds the same dict object that is returned, so after the hit the
stored payload equals the returned payload and carries the
`from_cache = True` mark (the insertion timestamp is unchanged). -/
theorem cached_hit_mutates_store (c : ImageCache Dict) (now : ℤ)
    (lat lng : ℚ) (zoom : ℤ) (mapType : String) (fetchResult v : Dict)
    (ts : ℤ)
    (hfind : ImageCache.findEntry c.cache
      (make_key lat lng (overheadParams zoom mapType)) = some (ts, v))
    (hfresh : now - ts < c.ttl) (hv : v.truthy = true) :
    ∃ c2, cached_get_overhead_view c now lat lng zoom mapType fetchResult =
        some (v.setItem "from_cache" (.bool true), c2, false) ∧
      ImageCache.findEntry c2.cache
          (make_key lat lng (overheadParams zoom mapType)) =
        some (ts, v.setItem "from_cache" (.bool true)) ∧
      (v.setItem "from_cache" (.bool true)).lookup "from_cache" =
        some (.bool true) := by
  have hget := ImageCache.get_hit c now lat lng (overheadParams zoom mapType)
    ts v hfind hfresh
  have h := cachedFetch_hit c now lat lng (overheadParams zoom mapType)
    fetchResult v (by rw [hget]) hv
  rw [hget] at h
  exact ⟨_, h,
    findEntry_mutateValue (make_key lat lng (overheadParams zoom mapType))
      ts v (v.setItem "from_cache" (.bool true)) c.cache hfind,
    Dict.lookup_setItem_self v "from_cache" (.bool true)⟩

/-- C7 witness: a concrete hit on a one-entry cache leaves the mark in
the stored payload. -/
theorem cached_hit_mutates_store_witness :
    ∃ c2, cached_get_overhead_view
        (⟨[(make_key 1 2 (overheadParams 3 "roadmap"), 0,
            [("success", PyVal.bool true)])], 100, 10, 0, 0, "overhead"⟩ :
          ImageCache Dict) 1 1 2 3 "roadmap" [] =
        some (Dict.setItem [("success", PyVal.bool true)] "from_cache"
          (.bool true), c2, false) ∧
      ImageCache.findEntry c2.cache
          (make_key 1 2 (overheadParams 3 "roadmap")) =
        some (0, Dict.setItem [("success", PyVal.bool true)] "from_cache"
          (.bool true)) ∧
      (Dict.setItem [("success", PyVal.bool true)] "from_cache"
        (.bool true)).lookup "from_cache" = some (.bool true) :=
  cached_hit_mutates_store
    ⟨[(make_key 1 2 (overheadParams 3 "roadmap"), 0,
      [("success", PyVal.bool true)])], 100, 10, 0, 0, "overhead"⟩
    1 1 2 3 "roadmap" [] [("success", PyVal.bool true)] 0
    (by simp [ImageCache.findEntry]) (by decide) (by decide)

/-- C7 counterexample: after a hit served through the wrapper, the stored
payload is no longer the payload originally set — it now carries the
`from_cache` mark, refuting the claim that a hit does not modify the
stored entry. -/
theorem cached_hit_not_frame_preserving :
    ∃ out, cached_get_overhead_view
        (⟨[(make_key 1 2 (overheadParams 3 "satellite"), 0,
            [("success", PyVal.bool true)])], 100, 10, 0, 0, "overhead"⟩ :
          ImageCache Dict) 1 1 2 3 "satellite" [] = some out ∧
      ImageCache.findEntry out.2.1.cache
          (make_key 1 2 (overheadParams 3 "satellite")) ≠
        some (0, [("success", PyVal.bool true)]) ∧
      ImageCache.findEntry out.2.1.cache
          (make_key 1 2 (overheadParams 3 "satellite")) =
        some (0, [("success", PyVal.bool true),
          ("from_cache", PyVal.bool true)]) := by
  have hfind : ImageCache.findEntry
      (⟨[(make_key 1 2 (overheadParams 3 "satellite"), 0,
          [("success", PyVal.bool true)])], 100, 10, 0, 0, "overhead"⟩ :
        ImageCache Dict).cache
      (make_key 1 2 (overheadParams 3 "satellite")) =
      some (0, [("success", PyVal.bool true)]) := by
    simp [ImageCache.findEntry]
  have hget := ImageCache.get_hit
    (⟨[(make_key 1 2 (overheadParams 3 "satellite"), 0,
        [("success", PyVal.bool true)])], 100, 10, 0, 0, "overhead"⟩ :
      ImageCache Dict)
    1 1 2 (overheadParams 3 "satellite") 0 [("success", PyVal.bool true)]
    hfind (by decide)
  have h := cachedFetch_hit
    (⟨[(make_key 1 2 (overheadParams 3 "satellite"), 0,
        [("success", PyVal.bool true)])], 100, 10, 0, 0, "overhead"⟩ :
      ImageCache Dict)
    1 1 2 (overheadParams 3 "satellite") []
    [("success", PyVal.bool true)] (by rw [hget]) (by decide)
  rw [hget] at h
  have hmut := findEntry_mutateValue
    (make_key 1 2 (overheadParams 3 "satellite")) 0
    [("success", PyVal.bool true)]
    (Dict.setItem [("success", PyVal.bool true)] "from_cache" (.bool true))
    (⟨[(make_key 1 2 (overheadParams 3 "satellite"), 0,
        [("success", PyVal.bool true)])], 100, 10, 0, 0, "overhead"⟩ :
      ImageCache Dict).cache hfind
  refine ⟨_, h, ?_, ?_⟩
  · rw [hmut]
    decide
  · rw [hmut]
    rfl

end OmniVisual
